import Mathlib

/-!
A verification development for the to-do list program in `main.py`.

The program keeps an in-memory list of tasks (`Task` dataclass with a `name`
string and a `due` `datetime`), persists it to a JSON file, and offers four
operations: `add_task`, `list_tasks`, `remove_task`, `clear_tasks`, plus the
persistence helpers `load_tasks` / `save_tasks` and the input parser
`parse_datetime`.

The shallow embedding below mirrors the source:

* Python `datetime` values are records of numeric fields.  In Python a
  `datetime` can only be constructed with fields in their calendar ranges
  (the constructor validates them), and comparison is lexicographic on the
  field tuple.  We embed the order through the mixed-radix key
  `DateTime.key`, which agrees with the lexicographic order whenever the
  fields are within their radices — in particular on every value the Python
  runtime can represent.
* `datetime.strptime` at the two format strings `"%Y-%m-%d %H:%M"` and
  `"%Y-%m-%d"` is embedded by `strptimeYmdHM` / `strptimeYmd`, following
  CPython's `_strptime` regexes: `%Y` is exactly four digits, `%m`, `%d`,
  `%H`, `%M` are one or two digits restricted to the ranges of the generated
  regex alternations, a whitespace character in the format matches one or
  more whitespace characters, and the whole input must be consumed.  The
  final `datetime(...)` construction re-validates every field (year within
  1..9999, day against the month length with Gregorian leap years) and
  raises `ValueError` — i.e. yields `none` here — when a check fails.
  (The regex alternations are order-sensitive with backtracking; for these
  formats the two-digit branch can only be abandoned when the following
  literal fails, and the one-digit fallback would then require a digit to
  equal a non-digit literal, so the greedy two-digit-first scan below is
  exactly equivalent.)
* `datetime.isoformat` / `datetime.fromisoformat` are embedded on the
  fragment the program exercises: `isoformat` prints
  `YYYY-MM-DDTHH:MM:SS` (microseconds are always 0 here, so never printed)
  and `fromisoformat` accepts `YYYY-MM-DD`, optionally followed by a single
  separator character and `HH:MM` or `HH:MM:SS` (fractional seconds and
  timezone offsets, which this program never writes, are out of scope).
* The JSON file is embedded as a `FileContent`: absent, present-but-not-JSON
  text, or a parsed JSON value `J`.  `json.load` duplicate object keys keep
  the last occurrence, and iterating a non-list value follows Python
  semantics (a dict iterates its keys, a string its characters, other
  scalars fail).
-/

namespace Todo

/-- A Python `datetime` value (microseconds, which are always zero in this
program, are omitted). -/
structure DateTime where
  year : Nat
  month : Nat
  day : Nat
  hour : Nat
  minute : Nat
  second : Nat
deriving DecidableEq, Repr

/-- Mixed-radix key embedding Python's lexicographic `datetime` comparison:
on values whose fields lie within their radices (true of every constructible
Python `datetime`) `key a ≤ key b` iff `a ≤ b` in Python. -/
def DateTime.key (d : DateTime) : Nat :=
  ((((d.year * 13 + d.month) * 32 + d.day) * 24 + d.hour) * 60 + d.minute) * 60
    + d.second

/-- `True` for leap years, following Python's `calendar`/`datetime` rule. -/
def isLeapYear (y : Nat) : Bool :=
  y % 4 == 0 && (y % 100 != 0 || y % 400 == 0)

/-- Length of a month, as enforced by the Python `datetime` constructor. -/
def daysInMonth (y m : Nat) : Nat :=
  if m == 2 then (if isLeapYear y then 29 else 28)
  else if m == 4 || m == 6 || m == 9 || m == 11 then 30
  else 31

/-- The field ranges the Python `datetime` constructor enforces; every
`datetime` the runtime can hold satisfies them. -/
def DateTime.Valid (d : DateTime) : Prop :=
  1 ≤ d.year ∧ d.year ≤ 9999 ∧ 1 ≤ d.month ∧ d.month ≤ 12 ∧
  1 ≤ d.day ∧ d.day ≤ daysInMonth d.year d.month ∧
  d.hour ≤ 23 ∧ d.minute ≤ 59 ∧ d.second ≤ 59

instance (d : DateTime) : Decidable d.Valid := by
  unfold DateTime.Valid; infer_instance

/-- Embedding of the `datetime(year, month, day, hour, minute)` construction
performed inside `strptime`: validates every field and raises `ValueError`
(`none`) on failure; seconds default to zero. -/
def mkDatetime (year month day hour minute : Nat) : Option DateTime :=
  if DateTime.Valid ⟨year, month, day, hour, minute, 0⟩ then
    some ⟨year, month, day, hour, minute, 0⟩
  else none

/-- The ASCII whitespace characters of Python's `str.strip` and of the regex
class matched for a whitespace character in a `strptime` format. -/
def isPySpace (c : Char) : Bool :=
  c == ' ' || c == '\t' || c == '\n' || c == '\x0d' ||
  c == '\x0b' || c == '\x0c'

/-- Python `str.strip()` on the ASCII fragment. -/
def pyStrip (cs : List Char) : List Char :=
  ((cs.dropWhile isPySpace).reverse.dropWhile isPySpace).reverse

/-- Numeric value of a digit character. -/
def digitVal (c : Char) : Nat := c.toNat - 48

/-- Scan a one-or-two digit `strptime` field: the generated regex accepts a
two-digit value in `[lo2, hi2]` (preferred) or a one-digit value in
`[lo1, hi1]`. -/
def scanField (lo2 hi2 lo1 hi1 : Nat) : List Char → Option (Nat × List Char)
  | c1 :: c2 :: rest =>
    if c1.isDigit ∧ c2.isDigit ∧ lo2 ≤ digitVal c1 * 10 + digitVal c2 ∧
        digitVal c1 * 10 + digitVal c2 ≤ hi2 then
      some (digitVal c1 * 10 + digitVal c2, rest)
    else if c1.isDigit ∧ lo1 ≤ digitVal c1 ∧ digitVal c1 ≤ hi1 then
      some (digitVal c1, c2 :: rest)
    else none
  | [c1] =>
    if c1.isDigit ∧ lo1 ≤ digitVal c1 ∧ digitVal c1 ≤ hi1 then
      some (digitVal c1, [])
    else none
  | [] => none

/-- Scan the exactly-four-digit `%Y` field. -/
def scanYear4 : List Char → Option (Nat × List Char)
  | c1 :: c2 :: c3 :: c4 :: rest =>
    if c1.isDigit ∧ c2.isDigit ∧ c3.isDigit ∧ c4.isDigit then
      some (((digitVal c1 * 10 + digitVal c2) * 10 + digitVal c3) * 10 +
        digitVal c4, rest)
    else none
  | _ => none

/-- Scan one literal character of the format. -/
def scanLit (c : Char) : List Char → Option (List Char)
  | c' :: rest => if c' = c then some rest else none
  | [] => none

/-- Scan the one-or-more whitespace characters a format-string space
stands for. -/
def scanSpaces1 : List Char → Option (List Char)
  | c :: rest => if isPySpace c then some (rest.dropWhile isPySpace) else none
  | [] => none

/-- `datetime.strptime(input, "%Y-%m-%d %H:%M")`, `none` on `ValueError`. -/
def strptimeYmdHM (cs : List Char) : Option DateTime :=
  (scanYear4 cs).bind fun p1 =>
  (scanLit '-' p1.2).bind fun cs2 =>
  (scanField 1 12 1 9 cs2).bind fun p2 =>
  (scanLit '-' p2.2).bind fun cs4 =>
  (scanField 1 31 1 9 cs4).bind fun p3 =>
  (scanSpaces1 p3.2).bind fun cs6 =>
  (scanField 0 23 0 9 cs6).bind fun p4 =>
  (scanLit ':' p4.2).bind fun cs8 =>
  (scanField 0 59 0 9 cs8).bind fun p5 =>
  if p5.2 = [] then mkDatetime p1.1 p2.1 p3.1 p4.1 p5.1 else none

/-- `datetime.strptime(input, "%Y-%m-%d")`, `none` on `ValueError`. -/
def strptimeYmd (cs : List Char) : Option DateTime :=
  (scanYear4 cs).bind fun p1 =>
  (scanLit '-' p1.2).bind fun cs2 =>
  (scanField 1 12 1 9 cs2).bind fun p2 =>
  (scanLit '-' p2.2).bind fun cs4 =>
  (scanField 1 31 1 9 cs4).bind fun p3 =>
  if p3.2 = [] then mkDatetime p1.1 p2.1 p3.1 0 0 else none

/-- `parse_datetime` from `main.py`: strip the input, try
`"%Y-%m-%d %H:%M"` then `"%Y-%m-%d"`, the first success winning; on the
date-only format replace the time by 23:59; return `None` when both fail. -/
def parse_datetime (input_str : String) : Option DateTime :=
  let cs := pyStrip input_str.toList
  match strptimeYmdHM cs with
  | some dt => some dt
  | none =>
    match strptimeYmd cs with
    | some dt => some { dt with hour := 23, minute := 59 }
    | none => none

/-- Zero-padded two-digit rendering of a field value. -/
def pad2 (n : Nat) : List Char := [Nat.digitChar (n / 10), Nat.digitChar (n % 10)]

/-- Zero-padded four-digit rendering of a year. -/
def pad4 (n : Nat) : List Char :=
  [Nat.digitChar (n / 1000), Nat.digitChar (n / 100 % 10),
   Nat.digitChar (n / 10 % 10), Nat.digitChar (n % 10)]

/-- `datetime.isoformat()`: `YYYY-MM-DDTHH:MM:SS` (microseconds are zero for
every value this program builds, so they are never printed). -/
def DateTime.isoformat (d : DateTime) : String :=
  ⟨pad4 d.year ++ '-' :: pad2 d.month ++ '-' :: pad2 d.day ++
    'T' :: pad2 d.hour ++ ':' :: pad2 d.minute ++ ':' :: pad2 d.second⟩

/-- A two-digit group read by `fromisoformat`. -/
def readPair2 : Char → Char → Option Nat := fun c1 c2 =>
  if c1.isDigit ∧ c2.isDigit then some (digitVal c1 * 10 + digitVal c2) else none

/-- The time tail accepted by `datetime.fromisoformat` after the date: empty,
or one separator character followed by `HH:MM`, optionally `:SS` (fractional
seconds and offsets, never produced by this program, are out of scope). -/
def readIsoTime : List Char → Option (Nat × Nat × Nat)
  | [] => some (0, 0, 0)
  | _ :: h1 :: h2 :: ':' :: m1 :: m2 :: rest =>
    match readPair2 h1 h2, readPair2 m1 m2 with
    | some h, some m =>
      match rest with
      | [] => some (h, m, 0)
      | ':' :: s1 :: s2 :: [] =>
        match readPair2 s1 s2 with
        | some s => some (h, m, s)
        | none => none
      | _ => none
    | _, _ => none
  | _ => none

/-- `datetime.fromisoformat` on the fragment relevant here: a padded
`YYYY-MM-DD` date, then `readIsoTime`; the constructed value is validated
exactly as by the `datetime` constructor. -/
def fromisoformat (s : String) : Option DateTime :=
  match s.toList with
  | y1 :: y2 :: y3 :: y4 :: '-' :: m1 :: m2 :: '-' :: d1 :: d2 :: rest =>
    if y1.isDigit ∧ y2.isDigit ∧ y3.isDigit ∧ y4.isDigit then
      match readPair2 m1 m2, readPair2 d1 d2 with
      | some m, some d =>
        match readIsoTime rest with
        | some (h, mi, s) =>
          let dt : DateTime :=
            ⟨((digitVal y1 * 10 + digitVal y2) * 10 + digitVal y3) * 10 +
              digitVal y4, m, d, h, mi, s⟩
          if dt.Valid then some dt else none
        | none => none
      | _, _ => none
    else none
  | _ => none

/-- The `Task` dataclass: dataclass equality compares the field tuple. -/
structure Task where
  name : String
  due : DateTime
deriving DecidableEq, Repr

/-- A parsed JSON value, as produced by `json.load`. -/
inductive J where
  | nullJ : J
  | boolJ : Bool → J
  | numJ : Int → J
  | strJ : String → J
  | arrJ : List J → J
  | objJ : List (String × J) → J

/-- The state of the `tasks.json` file: missing, present but not valid JSON
text, or holding a JSON value. -/
inductive FileContent where
  | absent : FileContent
  | notJson : FileContent
  | content : J → FileContent

/-- The one failure the spec's taxonomy assigns to loading: any exception
raised while decoding or re-reading the file (`json.JSONDecodeError`,
`KeyError`, `TypeError`, `ValueError` from `fromisoformat`). -/
inductive LoadError where
  | malformedData : LoadError
deriving DecidableEq

/-- `Task.to_dict`. -/
def Task.to_dict (t : Task) : J :=
  .objJ [("name", .strJ t.name), ("due", .strJ t.due.isoformat)]

/-- `json.dump` of `[t.to_dict() for t in tasks]`, i.e. the file contents
written by `save_tasks`. -/
def save_tasks (tasks : List Task) : FileContent :=
  .content (.arrJ (tasks.map Task.to_dict))

/-- Key lookup in a decoded JSON object: `json.load` builds a `dict`, so a
duplicated key keeps its last occurrence. -/
def getKey (k : String) : List (String × J) → Option J
  | [] => none
  | (k', v) :: rest =>
    match getKey k rest with
    | some v' => some v'
    | none => if k' = k then some v else none

/-- `Task.from_dict(d)`: `d["name"]` and `d["due"]` raise `KeyError` when
missing (and `TypeError` when `d` is not a dict), and
`datetime.fromisoformat(d["due"])` raises on a non-string or unparsable
value.  (Python would accept a non-string `"name"` value unchanged, since
dataclass fields are not runtime-checked; the embedding's `Task.name` is a
string, so that unreachable-in-this-program case is reported as an error.) -/
def Task.from_dict (j : J) : Except LoadError Task :=
  match j with
  | .objJ fields =>
    match getKey "name" fields with
    | some (.strJ name) =>
      match getKey "due" fields with
      | some (.strJ dueStr) =>
        match fromisoformat dueStr with
        | some due => .ok ⟨name, due⟩
        | none => .error .malformedData
      | some _ => .error .malformedData
      | none => .error .malformedData
    | some _ => .error .malformedData
    | none => .error .malformedData
  | _ => .error .malformedData

/-- Python iteration over the decoded top-level value: a list yields its
elements, a dict its keys, a string its characters; other values raise
`TypeError`. -/
def jsonIter : J → Option (List J)
  | .arrJ xs => some xs
  | .objJ fields => some (fields.map fun p => .strJ p.1)
  | .strJ s => some (s.toList.map fun c => .strJ (String.singleton c))
  | _ => none

/-- The comprehension `[Task.from_dict(item) for item in data]`: entries are
decoded left to right and the first exception propagates. -/
def loadItems : List J → Except LoadError (List Task)
  | [] => .ok []
  | j :: js =>
    match Task.from_dict j with
    | .error e => .error e
    | .ok t =>
      match loadItems js with
      | .error e => .error e
      | .ok ts => .ok (t :: ts)

/-- `load_tasks()`: empty list when the file is absent, otherwise decode the
file and build a task per entry; every raised exception surfaces as the
spec's `MalformedDataError`. -/
def load_tasks (file : FileContent) : Except LoadError (List Task) :=
  match file with
  | .absent => .ok []
  | .notJson => .error .malformedData
  | .content j =>
    match jsonIter j with
    | some items => loadItems items
    | none => .error .malformedData

/-- The store a run of the program manipulates: the in-memory list plus the
persisted file. -/
structure Store where
  tasks : List Task
  file : FileContent

/-- The ordering predicate of `sorted(tasks, key=lambda t: t.due)`. -/
def dueLE (a b : Task) : Bool := a.due.key ≤ b.due.key

/-- `sorted(tasks, key=lambda t: t.due)` — a stable ascending sort. -/
def sortByDue (tasks : List Task) : List Task :=
  tasks.mergeSort dueLE

/-- The rows printed by `list_tasks`: the due-sorted tasks enumerated from 1,
each with its overdue flag `t.due < now`.  (On an empty list the source
returns before printing rows; the row list is empty either way.) -/
def list_tasks (tasks : List Task) (now : DateTime) : List (Nat × Task × Bool) :=
  ((sortByDue tasks).enumFrom 1).map fun p =>
    (p.1, p.2, decide (p.2.due.key < now.key))

/-- Outcome of `add_task`, mirroring its three exit paths. -/
inductive AddResult where
  | emptyName : AddResult
  | badDate : AddResult
  | added : Task → AddResult
deriving DecidableEq, Repr

/-- `add_task`: reject a name that strips to empty, then reject a due text
`parse_datetime` cannot parse, mutating nothing in either case; otherwise
append the new task and save. -/
def add_task (st : Store) (nameInput dueInput : String) : Store × AddResult :=
  let name := String.mk (pyStrip nameInput.toList)
  if name = "" then (st, .emptyName)
  else
    let due_str := String.mk (pyStrip dueInput.toList)
    match parse_datetime due_str with
    | none => (st, .badDate)
    | some due =>
      let tasks' := st.tasks ++ [⟨name, due⟩]
      (⟨tasks', save_tasks tasks'⟩, .added ⟨name, due⟩)

/-- Outcome of `remove_task`, mirroring its four exit paths. -/
inductive RemoveOutcome where
  | noTasks : RemoveOutcome
  | notANumber : RemoveOutcome
  | invalidIndex : RemoveOutcome
  | removed : Task → RemoveOutcome
deriving DecidableEq, Repr

/-- `remove_task`: return on an empty list; `int(...)` failure (`input =
none`) returns; an index outside `1..len` returns; otherwise delete, from
the unsorted list, the first occurrence equal to the task at the chosen
sorted position (`list.remove` compares dataclass values) and save. -/
def remove_task (st : Store) (input : Option Int) : Store × RemoveOutcome :=
  if st.tasks = [] then (st, .noTasks)
  else
    match input with
    | none => (st, .notANumber)
    | some idx =>
      let tasks_sorted := sortByDue st.tasks
      if h : idx < 1 ∨ (tasks_sorted.length : Int) < idx then
        (st, .invalidIndex)
      else
        let task := tasks_sorted.get ⟨idx.toNat - 1, by
          push_neg at h
          have := h.2
          omega⟩
        let tasks' := st.tasks.erase task
        (⟨tasks', save_tasks tasks'⟩, .removed task)

/-- Python `str.lower()` on the ASCII fragment. -/
def pyLower (s : String) : String := String.mk (s.toList.map Char.toLower)

/-- `clear_tasks`: only the confirmation `"y"` (case-insensitively) empties
the list and saves; any other reply leaves everything untouched. -/
def clear_tasks (st : Store) (confirm : String) : Store :=
  if pyLower confirm = "y" then ⟨[], save_tasks []⟩ else st

/-! ### Sorting facts -/

theorem dueLE_trans : ∀ a b c : Task, dueLE a b → dueLE b c → dueLE a c := by
  intro a b c hab hbc
  simp only [dueLE, decide_eq_true_eq] at *
  omega

theorem dueLE_total : ∀ a b : Task, dueLE a b || dueLE b a := by
  intro a b
  simp only [dueLE, Bool.or_eq_true, decide_eq_true_eq]
  omega

theorem sortByDue_perm (l : List Task) : (sortByDue l).Perm l :=
  List.mergeSort_perm l dueLE

theorem sortByDue_length (l : List Task) : (sortByDue l).length = l.length :=
  (sortByDue_perm l).length_eq

theorem sortByDue_sorted (l : List Task) :
    (sortByDue l).Pairwise (fun a b => a.due.key ≤ b.due.key) := by
  refine (List.sorted_mergeSort dueLE_trans dueLE_total l).imp ?_
  intro a b h
  simpa [dueLE] using h

/-- Stability of `sortByDue`: for any predicate whose satisfying tasks are
mutually `dueLE`-comparable (in particular, tasks with one fixed due key),
sorting does not reorder them. -/
theorem sortByDue_filter (l : List Task) (p : Task → Bool)
    (hp : ∀ a b, p a → p b → dueLE a b) :
    (sortByDue l).filter p = l.filter p := by
  have hperm : ((sortByDue l).filter p).Perm (l.filter p) :=
    (sortByDue_perm l).filter p
  have hpair : (l.filter p).Pairwise (fun a b => dueLE a b = true) :=
    List.pairwise_of_forall_mem_list fun a ha b hb =>
      hp a b (List.of_mem_filter ha) (List.of_mem_filter hb)
  have hsub : List.Sublist (l.filter p) (sortByDue l) :=
    List.sublist_mergeSort dueLE_trans dueLE_total hpair (List.filter_sublist l)
  have hself : (l.filter p).filter p = l.filter p :=
    List.filter_eq_self.mpr fun a ha => List.of_mem_filter ha
  have hsub2 : List.Sublist (l.filter p) ((sortByDue l).filter p) := by
    simpa [hself] using hsub.filter p
  exact (hsub2.eq_of_length hperm.length_eq.symm).symm

theorem list_tasks_map_task (tasks : List Task) (now : DateTime) :
    (list_tasks tasks now).map (fun e => e.2.1) = sortByDue tasks := by
  rw [list_tasks, List.map_map]
  rw [show ((fun e : Nat × Task × Bool => e.2.1) ∘
      (fun p : Nat × Task => (p.1, p.2, decide (p.2.due.key < now.key)))) =
      Prod.snd from rfl]
  exact List.enumFrom_map_snd 1 (sortByDue tasks)

theorem list_tasks_length (tasks : List Task) (now : DateTime) :
    (list_tasks tasks now).length = tasks.length := by
  rw [list_tasks, List.length_map, List.enumFrom_length, sortByDue_length]

theorem list_tasks_map_fst (tasks : List Task) (now : DateTime) :
    (list_tasks tasks now).map (fun e => e.1) =
      List.range' 1 (list_tasks tasks now).length := by
  rw [list_tasks, List.map_map]
  rw [show ((fun e : Nat × Task × Bool => e.1) ∘
      (fun p : Nat × Task => (p.1, p.2, decide (p.2.due.key < now.key)))) =
      Prod.fst from rfl]
  rw [List.enumFrom_map_fst 1 (sortByDue tasks)]
  rw [List.length_map, List.enumFrom_length]

/-- C1.  `list_tasks` presents the tasks due-sorted: the displayed task
sequence is a permutation of the input, non-decreasing in the due key,
stable (the tasks carrying any fixed due key appear exactly in their
original relative order), and the display indices are `1, 2, …, n` in
order. -/
theorem list_tasks_sorted_stable_oneBased (tasks : List Task) (now : DateTime) :
    ((list_tasks tasks now).map (fun e => e.2.1)).Perm tasks ∧
    ((list_tasks tasks now).map (fun e => e.2.1)).Pairwise
      (fun a b => a.due.key ≤ b.due.key) ∧
    (∀ k : Nat, ((list_tasks tasks now).map (fun e => e.2.1)).filter
        (fun t => t.due.key == k) = tasks.filter (fun t => t.due.key == k)) ∧
    (list_tasks tasks now).map (fun e => e.1) =
      List.range' 1 (list_tasks tasks now).length := by
  rw [list_tasks_map_task]
  refine ⟨sortByDue_perm tasks, sortByDue_sorted tasks, ?_, ?_⟩
  · intro k
    refine sortByDue_filter tasks _ ?_
    intro a b ha hb
    simp only [beq_iff_eq] at ha hb
    simp [dueLE, ha, hb]
  · exact list_tasks_map_fst tasks now

/-- C7.  A listed task is flagged overdue exactly when its due timestamp is
strictly before `now`; at the boundary `due = now` the flag is off. -/
theorem overdue_iff_due_before_now (tasks : List Task) (now : DateTime)
    (e : Nat × Task × Bool) (he : e ∈ list_tasks tasks now) :
    (e.2.2 = true ↔ e.2.1.due.key < now.key) ∧
    (e.2.1.due = now → e.2.2 = false) := by
  rw [list_tasks] at he
  obtain ⟨p, -, rfl⟩ := List.mem_map.mp he
  constructor
  · simp
  · intro h
    have hk : p.2.due.key = now.key := by rw [h]
    simp [hk]

theorem sortByDue_of_sorted {l : List Task}
    (h : l.Pairwise (fun a b => dueLE a b)) : sortByDue l = l :=
  List.mergeSort_of_sorted h

theorem overdue_iff_witness :
    (true = true ↔ DateTime.key ⟨2026, 2, 5, 14, 30, 0⟩ <
      DateTime.key ⟨2026, 2, 5, 14, 31, 0⟩) ∧
    ((⟨2026, 2, 5, 14, 30, 0⟩ : DateTime) = ⟨2026, 2, 5, 14, 31, 0⟩ →
      true = false) :=
  overdue_iff_due_before_now [⟨"tugas", ⟨2026, 2, 5, 14, 30, 0⟩⟩]
    ⟨2026, 2, 5, 14, 31, 0⟩
    (1, ⟨"tugas", ⟨2026, 2, 5, 14, 30, 0⟩⟩, true)
    (by rw [list_tasks, sortByDue_of_sorted (by decide)]; decide)

/-! ### `parse_datetime` -/

/-- C2.  `parse_datetime` tries `"%Y-%m-%d %H:%M"` first and that parse wins
when it succeeds; otherwise the `"%Y-%m-%d"` parse is used with the time
forced to 23:59; when both formats fail the result is `none` (never an
error — the function is total). -/
theorem parse_datetime_two_formats (s : String) :
    (∀ dt, strptimeYmdHM (pyStrip s.toList) = some dt →
      parse_datetime s = some dt) ∧
    (∀ dt, strptimeYmdHM (pyStrip s.toList) = none →
      strptimeYmd (pyStrip s.toList) = some dt →
      parse_datetime s = some { dt with hour := 23, minute := 59 } ∧
      (parse_datetime s).all (fun r => r.hour == 23 && r.minute == 59)) ∧
    (strptimeYmdHM (pyStrip s.toList) = none →
      strptimeYmd (pyStrip s.toList) = none →
      parse_datetime s = none) := by
  refine ⟨?_, ?_, ?_⟩
  · intro dt h
    replace h : strptimeYmdHM (pyStrip s.data) = some dt := h
    simp [parse_datetime, h]
  · intro dt h1 h2
    replace h1 : strptimeYmdHM (pyStrip s.data) = none := h1
    replace h2 : strptimeYmd (pyStrip s.data) = some dt := h2
    constructor
    · simp [parse_datetime, h1, h2]
    · simp [parse_datetime, h1, h2]
  · intro h1 h2
    replace h1 : strptimeYmdHM (pyStrip s.data) = none := h1
    replace h2 : strptimeYmd (pyStrip s.data) = none := h2
    simp [parse_datetime, h1, h2]

theorem parse_datetime_witness :
    parse_datetime "2026-02-05 14:30" = some ⟨2026, 2, 5, 14, 30, 0⟩ ∧
    parse_datetime "2026-02-05" = some ⟨2026, 2, 5, 23, 59, 0⟩ ∧
    parse_datetime "not-a-date" = none :=
  ⟨(parse_datetime_two_formats "2026-02-05 14:30").1 ⟨2026, 2, 5, 14, 30, 0⟩
      (by decide),
   ((parse_datetime_two_formats "2026-02-05").2.1 ⟨2026, 2, 5, 0, 0, 0⟩
      (by decide) (by decide)).1,
   (parse_datetime_two_formats "not-a-date").2.2 (by decide) (by decide)⟩

/-! ### `remove_task` -/

theorem remove_task_ok (st : Store) (idx : Nat) (h1 : 1 ≤ idx)
    (h2 : idx ≤ st.tasks.length) :
    ∃ t₀, (sortByDue st.tasks)[idx - 1]? = some t₀ ∧
      remove_task st (some (idx : Int)) =
        (⟨st.tasks.erase t₀, save_tasks (st.tasks.erase t₀)⟩, .removed t₀) := by
  have hne : st.tasks ≠ [] := by
    intro h
    rw [h] at h2
    simp at h2
    omega
  have hlen : (sortByDue st.tasks).length = st.tasks.length := sortByDue_length _
  have hbound : idx - 1 < (sortByDue st.tasks).length := by omega
  have hc1 : ¬((idx : Int) < 1) := by
    rw [Int.not_lt]
    exact_mod_cast h1
  have hc2 : ¬(((sortByDue st.tasks).length : Int) < (idx : Int)) := by
    rw [Int.not_lt, hlen]
    exact_mod_cast h2
  refine ⟨(sortByDue st.tasks).get ⟨idx - 1, hbound⟩, ?_, ?_⟩
  · simp [List.getElem?_eq_getElem hbound]
  · simp [remove_task, hne, hc1, hc2]

/-- C4.  With a valid index, `remove_task` resolves the task at position
`idx` of the freshly sorted view, deletes it from the unsorted list, and
persists the updated list. -/
theorem remove_task_removes_sorted_position (st : Store) (idx : Nat)
    (h1 : 1 ≤ idx) (h2 : idx ≤ st.tasks.length) :
    ∃ t₀, (sortByDue st.tasks)[idx - 1]? = some t₀ ∧
      remove_task st (some (idx : Int)) =
        (⟨st.tasks.erase t₀, save_tasks (st.tasks.erase t₀)⟩, .removed t₀) :=
  remove_task_ok st idx h1 h2

theorem remove_task_removes_sorted_position_witness :
    ∃ t₀, (sortByDue [(⟨"b", ⟨2026, 3, 1, 23, 59, 0⟩⟩ : Task),
        ⟨"a", ⟨2026, 2, 5, 14, 30, 0⟩⟩])[1 - 1]? = some t₀ ∧
      remove_task ⟨[⟨"b", ⟨2026, 3, 1, 23, 59, 0⟩⟩,
          ⟨"a", ⟨2026, 2, 5, 14, 30, 0⟩⟩], .absent⟩ (some (1 : Int)) =
        (⟨[⟨"b", ⟨2026, 3, 1, 23, 59, 0⟩⟩,
            ⟨"a", ⟨2026, 2, 5, 14, 30, 0⟩⟩].erase t₀,
          save_tasks ([⟨"b", ⟨2026, 3, 1, 23, 59, 0⟩⟩,
            ⟨"a", ⟨2026, 2, 5, 14, 30, 0⟩⟩].erase t₀)⟩, .removed t₀) :=
  remove_task_removes_sorted_position
    ⟨[⟨"b", ⟨2026, 3, 1, 23, 59, 0⟩⟩, ⟨"a", ⟨2026, 2, 5, 14, 30, 0⟩⟩], .absent⟩
    1 (by decide) (by decide)

/-- C10.  A successful removal deletes, from the unsorted list, the first
occurrence (in insertion order) of a task value-equal to the one at the
chosen sorted position, so the remaining multiset is the original minus one
occurrence of that task. -/
theorem remove_task_first_occurrence (st : Store) (idx : Nat)
    (h1 : 1 ≤ idx) (h2 : idx ≤ st.tasks.length) :
    ∃ t₀ l₁ l₂, (sortByDue st.tasks)[idx - 1]? = some t₀ ∧
      st.tasks = l₁ ++ t₀ :: l₂ ∧ t₀ ∉ l₁ ∧
      (remove_task st (some (idx : Int))).1.tasks = l₁ ++ l₂ ∧
      ((remove_task st (some (idx : Int))).1.tasks : Multiset Task) =
        (st.tasks : Multiset Task) - {t₀} := by
  obtain ⟨t₀, hget, heq⟩ := remove_task_ok st idx h1 h2
  have hmem : t₀ ∈ st.tasks := by
    have : t₀ ∈ sortByDue st.tasks := by
      obtain ⟨hb, hg⟩ := List.getElem?_eq_some.mp hget
      exact hg ▸ List.getElem_mem hb
    exact (sortByDue_perm st.tasks).mem_iff.mp this
  obtain ⟨l₁, l₂, hnotin, hsplit, herase⟩ := List.exists_erase_eq hmem
  refine ⟨t₀, l₁, l₂, hget, hsplit, hnotin, ?_, ?_⟩
  · rw [heq]
    exact herase
  · rw [heq]
    rw [Multiset.sub_singleton, Multiset.coe_erase]

theorem remove_task_first_occurrence_witness :
    ∃ t₀ l₁ l₂,
      (sortByDue [(⟨"a", ⟨2026, 2, 5, 14, 30, 0⟩⟩ : Task),
        ⟨"b", ⟨2026, 3, 1, 23, 59, 0⟩⟩,
        ⟨"a", ⟨2026, 2, 5, 14, 30, 0⟩⟩])[2 - 1]? = some t₀ ∧
      [(⟨"a", ⟨2026, 2, 5, 14, 30, 0⟩⟩ : Task), ⟨"b", ⟨2026, 3, 1, 23, 59, 0⟩⟩,
        ⟨"a", ⟨2026, 2, 5, 14, 30, 0⟩⟩] = l₁ ++ t₀ :: l₂ ∧ t₀ ∉ l₁ ∧
      (remove_task ⟨[⟨"a", ⟨2026, 2, 5, 14, 30, 0⟩⟩,
          ⟨"b", ⟨2026, 3, 1, 23, 59, 0⟩⟩, ⟨"a", ⟨2026, 2, 5, 14, 30, 0⟩⟩],
          .absent⟩ (some (2 : Int))).1.tasks = l₁ ++ l₂ ∧
      ((remove_task ⟨[⟨"a", ⟨2026, 2, 5, 14, 30, 0⟩⟩,
          ⟨"b", ⟨2026, 3, 1, 23, 59, 0⟩⟩, ⟨"a", ⟨2026, 2, 5, 14, 30, 0⟩⟩],
          .absent⟩ (some (2 : Int))).1.tasks : Multiset Task) =
        ([(⟨"a", ⟨2026, 2, 5, 14, 30, 0⟩⟩ : Task),
          ⟨"b", ⟨2026, 3, 1, 23, 59, 0⟩⟩,
          ⟨"a", ⟨2026, 2, 5, 14, 30, 0⟩⟩] : Multiset Task) - {t₀} :=
  remove_task_first_occurrence
    ⟨[⟨"a", ⟨2026, 2, 5, 14, 30, 0⟩⟩, ⟨"b", ⟨2026, 3, 1, 23, 59, 0⟩⟩,
      ⟨"a", ⟨2026, 2, 5, 14, 30, 0⟩⟩], .absent⟩ 2 (by decide) (by decide)

/-- C3.  With non-numeric input or an index outside `1..n`, `remove_task`
fails — nothing is removed, the store (list and file) is unchanged — and on
a non-empty list the failure is the non-numeric / invalid-index notice; on
an empty list the source takes its empty-collection early return, equally
mutation-free. -/
theorem remove_task_invalid_input (st : Store) (input : Option Int)
    (h : input = none ∨
      ∃ i, input = some i ∧ (i < 1 ∨ (st.tasks.length : Int) < i)) :
    (remove_task st input).1 = st ∧
    (∀ t, (remove_task st input).2 ≠ .removed t) ∧
    (st.tasks ≠ [] → input = none →
      (remove_task st input).2 = .notANumber) ∧
    (st.tasks ≠ [] → ∀ i, input = some i →
      (remove_task st input).2 = .invalidIndex) := by
  by_cases hne : st.tasks = []
  · refine ⟨by simp [remove_task, hne], by simp [remove_task, hne], ?_, ?_⟩
    · intro hcontra
      exact absurd hne hcontra
    · intro hcontra
      exact absurd hne hcontra
  · rcases h with rfl | ⟨i, rfl, hi⟩
    · refine ⟨?_, ?_, ?_, ?_⟩
      · simp [remove_task, hne]
      · simp [remove_task, hne]
      · intro _ _
        simp [remove_task, hne]
      · intro _ i h
        exact Option.noConfusion h
    · have hcond : (i < 1 ∨ ((sortByDue st.tasks).length : Int) < i) := by
        rw [sortByDue_length]
        exact hi
      refine ⟨?_, ?_, ?_, ?_⟩
      · simp [remove_task, hne, hcond]
      · simp [remove_task, hne, hcond]
      · intro _ h
        exact Option.noConfusion h
      · intro _ i' _
        simp [remove_task, hne, hcond]

theorem remove_task_invalid_input_witness :
    (remove_task ⟨[⟨"a", ⟨2026, 2, 5, 14, 30, 0⟩⟩], .absent⟩
      (some 5)).1 = ⟨[⟨"a", ⟨2026, 2, 5, 14, 30, 0⟩⟩], .absent⟩ ∧
    (∀ t, (remove_task ⟨[⟨"a", ⟨2026, 2, 5, 14, 30, 0⟩⟩], .absent⟩
      (some 5)).2 ≠ .removed t) ∧
    ([(⟨"a", ⟨2026, 2, 5, 14, 30, 0⟩⟩ : Task)] ≠ [] → (some 5 : Option Int) = none →
      (remove_task ⟨[⟨"a", ⟨2026, 2, 5, 14, 30, 0⟩⟩], .absent⟩
        (some 5)).2 = .notANumber) ∧
    ([(⟨"a", ⟨2026, 2, 5, 14, 30, 0⟩⟩ : Task)] ≠ [] → ∀ i, (some 5 : Option Int) = some i →
      (remove_task ⟨[⟨"a", ⟨2026, 2, 5, 14, 30, 0⟩⟩], .absent⟩
        (some 5)).2 = .invalidIndex) :=
  remove_task_invalid_input ⟨[⟨"a", ⟨2026, 2, 5, 14, 30, 0⟩⟩], .absent⟩
    (some 5) (Or.inr ⟨5, rfl, Or.inr (by decide)⟩)

/-! ### `add_task` and `clear_tasks` -/

/-- C5.  `add_task` rejects a whitespace-only name and an unparsable due
text without touching the store; on valid input it appends the task and
saves the new list at once. -/
theorem add_task_validates_then_appends (st : Store)
    (nameInput dueInput : String) :
    (String.mk (pyStrip nameInput.toList) = "" →
      add_task st nameInput dueInput = (st, .emptyName)) ∧
    (String.mk (pyStrip nameInput.toList) ≠ "" →
      parse_datetime (String.mk (pyStrip dueInput.toList)) = none →
      add_task st nameInput dueInput = (st, .badDate)) ∧
    (∀ dt, String.mk (pyStrip nameInput.toList) ≠ "" →
      parse_datetime (String.mk (pyStrip dueInput.toList)) = some dt →
      add_task st nameInput dueInput =
        (⟨st.tasks ++ [⟨String.mk (pyStrip nameInput.toList), dt⟩],
          save_tasks (st.tasks ++ [⟨String.mk (pyStrip nameInput.toList), dt⟩])⟩,
         .added ⟨String.mk (pyStrip nameInput.toList), dt⟩)) := by
  refine ⟨?_, ?_, ?_⟩
  · intro h
    replace h : String.mk (pyStrip nameInput.data) = "" := h
    simp [add_task, h]
  · intro h1 h2
    replace h1 : String.mk (pyStrip nameInput.data) ≠ "" := h1
    replace h2 : parse_datetime (String.mk (pyStrip dueInput.data)) = none := h2
    simp [add_task, h1, h2]
  · intro dt h1 h2
    replace h1 : String.mk (pyStrip nameInput.data) ≠ "" := h1
    replace h2 : parse_datetime (String.mk (pyStrip dueInput.data)) = some dt := h2
    simp [add_task, h1, h2]

theorem add_task_validates_then_appends_witness :
    add_task ⟨[], .absent⟩ "  " "2026-02-05" = (⟨[], .absent⟩, .emptyName) ∧
    add_task ⟨[], .absent⟩ "laporan" "soon" = (⟨[], .absent⟩, .badDate) ∧
    add_task ⟨[], .absent⟩ " laporan " "2026-02-05 14:30" =
      (⟨[⟨"laporan", ⟨2026, 2, 5, 14, 30, 0⟩⟩],
        save_tasks [⟨"laporan", ⟨2026, 2, 5, 14, 30, 0⟩⟩]⟩,
       .added ⟨"laporan", ⟨2026, 2, 5, 14, 30, 0⟩⟩) :=
  ⟨(add_task_validates_then_appends ⟨[], .absent⟩ "  " "2026-02-05").1 (by decide),
   (add_task_validates_then_appends ⟨[], .absent⟩ "laporan" "soon").2.1
     (by decide) (by decide),
   (add_task_validates_then_appends ⟨[], .absent⟩ " laporan "
     "2026-02-05 14:30").2.2 ⟨2026, 2, 5, 14, 30, 0⟩ (by decide) (by decide)⟩

/-- C6.  `clear_tasks` without the affirmative reply (`"y"`,
case-insensitively) is a no-op on list and file alike; with it, the list is
emptied and an empty sequence is saved. -/
theorem clear_tasks_requires_confirmation (st : Store) (confirm : String) :
    (pyLower confirm ≠ "y" → clear_tasks st confirm = st) ∧
    (pyLower confirm = "y" →
      clear_tasks st confirm = ⟨[], save_tasks []⟩ ∧
      save_tasks [] = .content (.arrJ [])) := by
  constructor
  · intro h
    simp [clear_tasks, h]
  · intro h
    exact ⟨by simp [clear_tasks, h], rfl⟩

theorem clear_tasks_requires_confirmation_witness :
    clear_tasks ⟨[⟨"a", ⟨2026, 2, 5, 14, 30, 0⟩⟩], .absent⟩ "n" =
      ⟨[⟨"a", ⟨2026, 2, 5, 14, 30, 0⟩⟩], .absent⟩ ∧
    clear_tasks ⟨[⟨"a", ⟨2026, 2, 5, 14, 30, 0⟩⟩], .absent⟩ "Y" =
      ⟨[], save_tasks []⟩ :=
  ⟨(clear_tasks_requires_confirmation
      ⟨[⟨"a", ⟨2026, 2, 5, 14, 30, 0⟩⟩], .absent⟩ "n").1 (by decide),
   ((clear_tasks_requires_confirmation
      ⟨[⟨"a", ⟨2026, 2, 5, 14, 30, 0⟩⟩], .absent⟩ "Y").2 (by decide)).1⟩

/-! ### Validity of parsed datetimes and the persistence round trip -/

theorem daysInMonth_le (y m : Nat) : daysInMonth y m ≤ 31 := by
  unfold daysInMonth
  split <;> (try split) <;> omega

theorem mkDatetime_valid {y m d h mi : Nat} {dt : DateTime}
    (hmk : mkDatetime y m d h mi = some dt) : dt.Valid := by
  unfold mkDatetime at hmk
  split at hmk
  · cases hmk
    assumption
  · cases hmk

theorem strptimeYmdHM_valid {cs : List Char} {dt : DateTime}
    (h : strptimeYmdHM cs = some dt) : dt.Valid := by
  simp only [strptimeYmdHM, Option.bind_eq_some] at h
  obtain ⟨p1, -, cs2, -, p2, -, cs4, -, p3, -, cs6, -, p4, -, cs8, -, p5, -, h⟩ := h
  split at h
  · exact mkDatetime_valid h
  · cases h

theorem strptimeYmd_valid {cs : List Char} {dt : DateTime}
    (h : strptimeYmd cs = some dt) : dt.Valid := by
  simp only [strptimeYmd, Option.bind_eq_some] at h
  obtain ⟨p1, -, cs2, -, p2, -, cs4, -, p3, -, h⟩ := h
  split at h
  · exact mkDatetime_valid h
  · cases h

theorem valid_endOfDay {dt : DateTime} (h : dt.Valid) :
    DateTime.Valid { dt with hour := 23, minute := 59 } := by
  obtain ⟨h1, h2, h3, h4, h5, h6, -, -, h9⟩ := h
  exact ⟨h1, h2, h3, h4, h5, h6, Nat.le_refl _, Nat.le_refl _, h9⟩

theorem parse_datetime_valid {s : String} {dt : DateTime}
    (h : parse_datetime s = some dt) : dt.Valid := by
  simp only [parse_datetime] at h
  split at h
  · cases h
    exact strptimeYmdHM_valid (by assumption)
  · split at h
    · cases h
      exact valid_endOfDay (strptimeYmd_valid (by assumption))
    · cases h

theorem digitChar_spec {n : Nat} (h : n < 10) :
    (Nat.digitChar n).isDigit = true ∧ digitVal (Nat.digitChar n) = n := by
  interval_cases n <;> exact ⟨by decide, by decide⟩

theorem readPair2_pad2 {n : Nat} (h : n ≤ 99) :
    readPair2 (Nat.digitChar (n / 10)) (Nat.digitChar (n % 10)) = some n := by
  have h1 := digitChar_spec (n := n / 10) (by omega)
  have h2 := digitChar_spec (n := n % 10) (by omega)
  rw [readPair2]
  rw [if_pos ⟨h1.1, h2.1⟩]
  rw [h1.2, h2.2]
  congr 1
  omega

/-- Writing a valid datetime with `isoformat` and reading it back with
`fromisoformat` restores it exactly. -/
theorem fromisoformat_isoformat {d : DateTime} (h : d.Valid) :
    fromisoformat d.isoformat = some d := by
  obtain ⟨hy1, hy2, hm1, hm2, hd1, hd2, hh, hmi, hs⟩ := h
  have hday : d.day ≤ 31 := hd2.trans (daysInMonth_le _ _)
  have hy4 := digitChar_spec (n := d.year % 10) (by omega)
  have hy3 := digitChar_spec (n := d.year / 10 % 10) (by omega)
  have hy2' := digitChar_spec (n := d.year / 100 % 10) (by omega)
  have hy1' := digitChar_spec (n := d.year / 1000) (by omega)
  simp only [DateTime.isoformat, fromisoformat, String.toList, pad4, pad2,
    List.cons_append, List.nil_append]
  rw [if_pos ⟨hy1'.1, hy2'.1, hy3.1, hy4.1⟩]
  rw [readPair2_pad2 (n := d.month) (by omega)]
  rw [readPair2_pad2 (n := d.day) (by omega)]
  simp only [readIsoTime]
  rw [readPair2_pad2 (n := d.hour) (by omega)]
  rw [readPair2_pad2 (n := d.minute) (by omega)]
  rw [readPair2_pad2 (n := d.second) (by omega)]
  rw [hy1'.2, hy2'.2, hy3.2, hy4.2]
  have hyear : ((d.year / 1000 * 10 + d.year / 100 % 10) * 10 +
      d.year / 10 % 10) * 10 + d.year % 10 = d.year := by omega
  rw [hyear]
  have hv : DateTime.Valid ⟨d.year, d.month, d.day, d.hour, d.minute, d.second⟩ :=
    ⟨hy1, hy2, hm1, hm2, hd1, hd2, hh, hmi, hs⟩
  simp [hv]

theorem from_dict_to_dict {t : Task} (h : t.due.Valid) :
    Task.from_dict t.to_dict = .ok t := by
  simp [Task.to_dict, Task.from_dict, getKey, fromisoformat_isoformat h]

theorem loadItems_ok {tasks : List Task}
    (h : ∀ t ∈ tasks, Task.from_dict t.to_dict = .ok t) :
    loadItems (tasks.map Task.to_dict) = .ok tasks := by
  induction tasks with
  | nil => rfl
  | cons t ts ih =>
    have ht := h t (List.mem_cons_self t ts)
    have hts := ih fun x hx => h x (List.mem_cons_of_mem t hx)
    simp [loadItems, ht, hts]

/-- Saving any list of tasks whose due dates are valid (every list the
program itself builds) and loading it back restores the list exactly. -/
theorem load_save_roundtrip {tasks : List Task}
    (h : ∀ t ∈ tasks, t.due.Valid) :
    load_tasks (save_tasks tasks) = .ok tasks := by
  have : ∀ t ∈ tasks, Task.from_dict t.to_dict = .ok t :=
    fun t ht => from_dict_to_dict (h t ht)
  simp [load_tasks, save_tasks, jsonIter, loadItems_ok this]

theorem loadItems_error {items : List J} {j : J} (hj : j ∈ items)
    (herr : Task.from_dict j = .error .malformedData) :
    loadItems items = .error .malformedData := by
  induction items with
  | nil => cases hj
  | cons x xs ih =>
    rcases List.mem_cons.mp hj with rfl | hmem
    · simp [loadItems, herr]
    · cases hx : Task.from_dict x with
      | error e =>
        cases e
        simp [loadItems, hx]
      | ok t =>
        simp [loadItems, hx, ih hmem]

theorem from_dict_missing_field {fields : List (String × J)}
    (h : getKey "name" fields = none ∨ getKey "due" fields = none) :
    Task.from_dict (.objJ fields) = .error .malformedData := by
  rcases h with hn | hd
  · simp [Task.from_dict, hn]
  · cases hname : getKey "name" fields with
    | none => simp [Task.from_dict, hname]
    | some v =>
      cases v <;> simp [Task.from_dict, hname, hd]

theorem from_dict_bad_due {fields : List (String × J)} {s : String}
    (hd : getKey "due" fields = some (.strJ s)) (hbad : fromisoformat s = none) :
    Task.from_dict (.objJ fields) = .error .malformedData := by
  cases hname : getKey "name" fields with
  | none => simp [Task.from_dict, hname]
  | some v =>
    cases v <;> simp [Task.from_dict, hname, hd, hbad]

/-- C8.  For a valid name/due-text pair, `add_task` followed by `load_tasks`
returns exactly the old tasks plus a final task carrying the given
(stripped) name and the parsed due timestamp: the new task round-trips
unchanged through serialization. -/
theorem add_task_then_load_roundtrip (st : Store) (nameInput dueInput : String)
    (dt : DateTime) (hall : ∀ t ∈ st.tasks, t.due.Valid)
    (hname : String.mk (pyStrip nameInput.toList) ≠ "")
    (hdue : parse_datetime (String.mk (pyStrip dueInput.toList)) = some dt) :
    load_tasks (add_task st nameInput dueInput).1.file =
      .ok (st.tasks ++ [⟨String.mk (pyStrip nameInput.toList), dt⟩]) ∧
    ∃ loaded, load_tasks (add_task st nameInput dueInput).1.file = .ok loaded ∧
      loaded.getLast? = some ⟨String.mk (pyStrip nameInput.toList), dt⟩ := by
  have hname' : String.mk (pyStrip nameInput.data) ≠ "" := hname
  have hdue' : parse_datetime (String.mk (pyStrip dueInput.data)) = some dt := hdue
  have hstore : (add_task st nameInput dueInput).1 =
      ⟨st.tasks ++ [⟨String.mk (pyStrip nameInput.data), dt⟩],
        save_tasks (st.tasks ++ [⟨String.mk (pyStrip nameInput.data), dt⟩])⟩ := by
    simp [add_task, hname', hdue']
  have hvalid : ∀ t ∈ st.tasks ++ [⟨String.mk (pyStrip nameInput.data), dt⟩],
      t.due.Valid := by
    intro t ht
    rcases List.mem_append.mp ht with hin | hnew
    · exact hall t hin
    · rcases List.mem_singleton.mp hnew with rfl
      exact parse_datetime_valid hdue'
  rw [hstore]
  refine ⟨load_save_roundtrip hvalid, _, load_save_roundtrip hvalid, ?_⟩
  exact List.getLast?_concat _

theorem add_task_then_load_roundtrip_witness :
    load_tasks (add_task ⟨[], .absent⟩ "laporan" "2026-02-05 14:30").1.file =
      .ok [⟨"laporan", ⟨2026, 2, 5, 14, 30, 0⟩⟩] ∧
    ∃ loaded, load_tasks
        (add_task ⟨[], .absent⟩ "laporan" "2026-02-05 14:30").1.file =
        .ok loaded ∧
      loaded.getLast? = some ⟨"laporan", ⟨2026, 2, 5, 14, 30, 0⟩⟩ :=
  add_task_then_load_roundtrip ⟨[], .absent⟩ "laporan" "2026-02-05 14:30"
    ⟨2026, 2, 5, 14, 30, 0⟩ (by simp) (by decide) (by decide)

/-- C9.  `load_tasks` yields the empty list when no file exists, and fails
with the malformed-data error when the file is not valid JSON, when an
entry lacks the `name` or `due` field, or when a `due` value does not parse
as a timestamp. -/
theorem load_tasks_error_cases :
    load_tasks .absent = .ok [] ∧
    load_tasks .notJson = .error .malformedData ∧
    (∀ (entries : List J) (fields : List (String × J)),
      J.objJ fields ∈ entries →
      (getKey "name" fields = none ∨ getKey "due" fields = none) →
      load_tasks (.content (.arrJ entries)) = .error .malformedData) ∧
    (∀ (entries : List J) (fields : List (String × J)) (s : String),
      J.objJ fields ∈ entries →
      getKey "due" fields = some (.strJ s) → fromisoformat s = none →
      load_tasks (.content (.arrJ entries)) = .error .malformedData) := by
  refine ⟨rfl, rfl, ?_, ?_⟩
  · intro entries fields hmem hmissing
    have herr := from_dict_missing_field hmissing
    simp [load_tasks, jsonIter, loadItems_error hmem herr]
  · intro entries fields s hmem hdue hbad
    have herr := from_dict_bad_due hdue hbad
    simp [load_tasks, jsonIter, loadItems_error hmem herr]

theorem load_tasks_error_cases_witness :
    load_tasks (.content (.arrJ [J.objJ [("name", .strJ "tugas")]])) =
      .error .malformedData ∧
    load_tasks (.content (.arrJ [J.objJ
        [("name", .strJ "tugas"), ("due", .strJ "not-a-date")]])) =
      .error .malformedData :=
  ⟨load_tasks_error_cases.2.2.1 [J.objJ [("name", .strJ "tugas")]]
      [("name", .strJ "tugas")] (List.mem_singleton.mpr rfl)
      (Or.inr rfl),
   load_tasks_error_cases.2.2.2
      [J.objJ [("name", .strJ "tugas"), ("due", .strJ "not-a-date")]]
      [("name", .strJ "tugas"), ("due", .strJ "not-a-date")] "not-a-date"
      (List.mem_singleton.mpr rfl) rfl (by decide)⟩
